import Mathlib

/-!
# Verification of the Rotten Issue Tracker core

A shallow embedding of the core logic of `main.go`: the rot filter and
sorter (`filterAndSortIssues`), the message formatter
(`formattedWeeklyIssues`), the counter-store read/write (decimal
integer parsing and printing as `strconv.Atoi` / `strconv.Itoa`), and
the execution order of the tail of `main`.

Strings are modelled as `List Char`; Go's `len` on a string is the
UTF-8 byte length, modelled by `utf8Len`.  Go `time.Time` values and
`time.Duration`s are modelled as integer nanoseconds (`Int`); the
process clock read by `time.Since` appears as an explicit `now`
parameter.
-/

/-- The character list of a string literal. -/
def str (s : String) : List Char := s.data

/-- The Repository struct (main.go lines 34-38). -/
structure Repository where
  id : Int
  name : List Char
  repoURL : List Char
deriving DecidableEq

/-- The Issue struct (main.go lines 22-31).  `createdAt` and `updatedAt`
are nanoseconds since the epoch.  `isPR` models the `pull_request` JSON
field: `none` when the field is absent (the Go `interface{}` is `nil`),
`some ()` when any value is present. -/
structure Issue where
  issueURL : List Char
  title : List Char
  repository : Repository
  body : List Char
  state : List Char
  createdAt : Int
  updatedAt : Int
  isPR : Option Unit
deriving DecidableEq

/-- Nanoseconds in one hour (`time.Hour`). -/
def nsPerHour : Int := 3600 * 1000000000

/-- Value of `math.MaxInt64`, the upper bound of Go's 64-bit `int` and
of `time.Duration`. -/
def int64Max : Int := 9223372036854775807

/-- Value of `math.MinInt64`, the lower bound of Go's 64-bit `int` and
of `time.Duration`. -/
def int64Min : Int := -9223372036854775808

/-- Two's-complement wraparound of signed 64-bit arithmetic:
`(x + 2^63) % 2^64 - 2^63`, written with decimal literals. -/
def wrap64 (x : Int) : Int :=
  (x + 9223372036854775808) % 18446744073709551616 - 9223372036854775808

/-- Go multiplication of `time.Duration` values (or any int64s): plain
64-bit multiplication, wrapping on overflow. -/
def durMul (a b : Int) : Int := wrap64 (a * b)

/-- Model of `time.Since(t)`: the elapsed time `now - t` as a
`time.Duration`; `time.Time.Sub` clamps to the Duration range
(`MinInt64 .. MaxInt64` nanoseconds) on overflow rather than wrapping. -/
def timeSince (now t : Int) : Int := max int64Min (min int64Max (now - t))

/-- On in-range values 64-bit wraparound is the identity. -/
theorem wrap64_eq_self {x : Int} (h1 : int64Min ≤ x) (h2 : x ≤ int64Max) :
    wrap64 x = x := by
  unfold wrap64
  unfold int64Min at h1
  unfold int64Max at h2
  omega

/-- On in-range differences `time.Since` is the exact difference. -/
theorem timeSince_eq_self {now t : Int} (h1 : int64Min ≤ now - t)
    (h2 : now - t ≤ int64Max) : timeSince now t = now - t := by
  rw [timeSince, min_eq_right h2, max_eq_right h1]

/-- Model of `issueSlice.Less` (main.go line 41): strict `UpdatedAt.Before`. -/
def issueLess (a b : Issue) : Prop := a.updatedAt < b.updatedAt

/-- The non-strict order that `sort.Sort` establishes on the slice:
adjacent elements satisfy `¬ Less j i`, i.e. `updatedAt` non-decreasing. -/
def issueLe (a b : Issue) : Prop := a.updatedAt ≤ b.updatedAt

instance : DecidableRel issueLe := fun a b => inferInstanceAs (Decidable (_ ≤ _))

instance : IsTotal Issue issueLe := ⟨fun a b => Int.le_total a.updatedAt b.updatedAt⟩

instance : IsTrans Issue issueLe := ⟨fun _ _ _ h h' => Int.le_trans h h'⟩

/-- The filter condition of main.go line 87: the issue is not a pull
request, `time.Since(issue.UpdatedAt) > rotteningTreshold*24*time.Hour`
(strictly), and the repository is not in the ignored set.  The threshold
product is two int64 `time.Duration` multiplications (left-associated,
each wrapping on overflow); `time.Since` clamps to the Duration range. -/
def keepIssue (now : Int) (ignoredRepos : List Char → Bool)
    (rotteningTreshold : Int) (issue : Issue) : Bool :=
  decide (issue.isPR = none) &&
    decide (timeSince now issue.updatedAt >
      durMul (durMul rotteningTreshold 24) nsPerHour) &&
    !(ignoredRepos issue.repository.name)

/-- Model of `filterAndSortIssues` (main.go lines 80-94): keep the issues passing
`keepIssue`, then `sort.Sort` by `UpdatedAt` ascending.  `sort.Sort` is
an unstable comparison sort; it is modelled by insertion sort over the
non-strict order `issueLe`, which produces a permutation of the filtered
list sorted exactly as `sort.Sort` guarantees.  `now` is the clock read
by `time.Since`; `ignoredRepos` the global ignored-repository set. -/
def filterAndSortIssues (now : Int) (ignoredRepos : List Char → Bool)
    (issues : List Issue) (rotteningTreshold : Int) : List Issue :=
  List.insertionSort issueLe
    (issues.filter (keepIssue now ignoredRepos rotteningTreshold))

/-- Membership in the filter-and-sort output is membership in the input
together with the filter condition. -/
theorem mem_filterAndSortIssues {now : Int} {ignoredRepos : List Char → Bool}
    {issues : List Issue} {rotteningTreshold : Int} {issue : Issue} :
    issue ∈ filterAndSortIssues now ignoredRepos issues rotteningTreshold ↔
      issue ∈ issues ∧ keepIssue now ignoredRepos rotteningTreshold issue = true := by
  unfold filterAndSortIssues
  rw [List.mem_insertionSort, List.mem_filter]

/-- A sample repository used by concrete witnesses. -/
def sampleRepo : Repository :=
  { id := 1, name := str "a-repo", repoURL := str "https://github.com/org/a-repo" }

/-- An issue whose age at time `now = 86400000000000` is exactly
`1 * 24 * time.Hour`: the boundary case of the rot threshold. -/
def boundaryIssue : Issue :=
  { issueURL := str "https://github.com/org/a-repo/issues/1"
    title := str "boundary"
    repository := sampleRepo
    body := str ""
    state := str "open"
    createdAt := 0
    updatedAt := 0
    isPR := none }

/-- C4 counterexample: an issue that is not a pull request, in a
non-ignored repository, whose elapsed age equals exactly
`threshold_days * 24h` (threshold 1 day, age 86400000000000 ns) is NOT
included: the code's comparison is strict (`>`), so the output is empty,
refuting "an issue whose age equals exactly threshold_days * 24h is
included". -/
theorem filter_boundary_excluded :
    filterAndSortIssues 86400000000000 (fun _ => false) [boundaryIssue] 1 = [] := by
  decide

/-- C4 (amended): for every issue of the input list that is not a pull
request and whose repository is not ignored, whenever the threshold is
non-negative with `threshold * 24h` within int64 (no Duration-product
overflow) and the issue's age is within the int64 Duration range (every
realistic configuration), the filter includes the issue if and only if
its elapsed age STRICTLY exceeds `threshold_days * 24h`; an issue whose
age equals the threshold exactly is excluded. -/
theorem filter_age_iff {now : Int} {ignoredRepos : List Char → Bool}
    {issues : List Issue} {rotteningTreshold : Int} {issue : Issue}
    (hmem : issue ∈ issues) (hpr : issue.isPR = none)
    (hign : ignoredRepos issue.repository.name = false)
    (hth0 : 0 ≤ rotteningTreshold)
    (hthmax : rotteningTreshold * 24 * nsPerHour ≤ int64Max)
    (hlo : int64Min ≤ now - issue.updatedAt)
    (hhi : now - issue.updatedAt ≤ int64Max) :
    issue ∈ filterAndSortIssues now ignoredRepos issues rotteningTreshold ↔
      now - issue.updatedAt > rotteningTreshold * 24 * nsPerHour := by
  have h240 : 0 ≤ rotteningTreshold * 24 := by omega
  have hns1 : (1 : Int) ≤ nsPerHour := by unfold nsPerHour; omega
  have h24hi : rotteningTreshold * 24 ≤ int64Max :=
    le_trans (le_mul_of_one_le_right h240 hns1) hthmax
  have h24lo : int64Min ≤ rotteningTreshold * 24 :=
    le_trans (by unfold int64Min; omega) h240
  have hprodlo : int64Min ≤ rotteningTreshold * 24 * nsPerHour :=
    le_trans (by unfold int64Min; omega)
      (mul_nonneg h240 (le_trans (by omega) hns1))
  have hprod : durMul (durMul rotteningTreshold 24) nsPerHour =
      rotteningTreshold * 24 * nsPerHour := by
    rw [durMul, durMul, wrap64_eq_self h24lo h24hi]
    exact wrap64_eq_self hprodlo hthmax
  have hsince : timeSince now issue.updatedAt = now - issue.updatedAt :=
    timeSince_eq_self hlo hhi
  rw [mem_filterAndSortIssues]
  simp [keepIssue, hmem, hpr, hign, hprod, hsince]

/-- C4 witness: the amended theorem applied at a concrete input: the
boundary issue is one nanosecond past the 1-day threshold at
`now = 86400000000001` (all values well within int64), and is indeed
included. -/
theorem filter_age_iff_witness :
    boundaryIssue ∈ [boundaryIssue] ∧ boundaryIssue.isPR = none ∧
      (fun _ => false : List Char → Bool) boundaryIssue.repository.name = false ∧
      0 ≤ (1 : Int) ∧ (1 : Int) * 24 * nsPerHour ≤ int64Max ∧
      int64Min ≤ (86400000000001 : Int) - boundaryIssue.updatedAt ∧
      (86400000000001 : Int) - boundaryIssue.updatedAt ≤ int64Max ∧
      boundaryIssue ∈ filterAndSortIssues 86400000000001 (fun _ => false) [boundaryIssue] 1 := by
  refine ⟨by decide, by decide, by decide, by decide, by decide, by decide, by decide, ?_⟩
  exact (filter_age_iff (by decide) (by decide) (by decide) (by decide) (by decide)
    (by decide) (by decide)).mpr (by decide)

/-- C5: no issue of the filter's output is a pull request, and none
belongs to an ignored repository — for every input list, ignored set and
threshold. -/
theorem filter_no_pr_no_ignored {now : Int} {ignoredRepos : List Char → Bool}
    {issues : List Issue} {rotteningTreshold : Int} {issue : Issue}
    (h : issue ∈ filterAndSortIssues now ignoredRepos issues rotteningTreshold) :
    issue.isPR = none ∧ ignoredRepos issue.repository.name = false := by
  rw [mem_filterAndSortIssues] at h
  have hk := h.2
  unfold keepIssue at hk
  simp only [Bool.and_eq_true, Bool.not_eq_true', decide_eq_true_eq] at hk
  exact ⟨hk.1.1, hk.2⟩

/-- C5 witness: the theorem applied to a concrete issue in a concrete
output. -/
theorem filter_no_pr_no_ignored_witness :
    boundaryIssue ∈ filterAndSortIssues 86400000000001 (fun _ => false) [boundaryIssue] 1 ∧
      boundaryIssue.isPR = none ∧
      (fun _ => false : List Char → Bool) boundaryIssue.repository.name = false := by
  refine ⟨by decide, ?_⟩
  exact @filter_no_pr_no_ignored 86400000000001 (fun _ => false) [boundaryIssue] 1
    boundaryIssue (by decide)

/-- C6: the filter-and-sort output is monotonically non-decreasing in
`updatedAt` (oldest first): every pair of positions in order — hence in
particular every adjacent pair — satisfies `updatedAt i ≤ updatedAt j`. -/
theorem filter_sorted (now : Int) (ignoredRepos : List Char → Bool)
    (issues : List Issue) (rotteningTreshold : Int) :
    List.Sorted (fun a b => a.updatedAt ≤ b.updatedAt)
      (filterAndSortIssues now ignoredRepos issues rotteningTreshold) := by
  unfold filterAndSortIssues
  exact List.sorted_insertionSort issueLe _

/-! ## Counter store: decimal printing and parsing -/

/-- The decimal digit character of `d`. -/
def digitChar (d : Nat) : Char := Char.ofNat (48 + d)

/-- Big-endian decimal digits of `n`, with `fuel ≥ n` recursion fuel. -/
def natToCharsAux : Nat → Nat → List Char
  | 0, _ => []
  | fuel + 1, n =>
    if n = 0 then [] else natToCharsAux fuel (n / 10) ++ [digitChar (n % 10)]

/-- Model of `strconv.Itoa` on a non-negative value: big-endian decimal digits,
with a single `'0'` for zero. -/
def natToChars (n : Nat) : List Char :=
  if n = 0 then [digitChar 0] else natToCharsAux n n

/-- Model of `strconv.Itoa` (the counter write of main.go line 207 is
`strconv.Itoa(numberOfIssuesThisWeek)`). -/
def goItoa (i : Int) : List Char :=
  if i < 0 then '-' :: natToChars (-i).toNat else natToChars i.toNat

/-- Is `c` an ASCII decimal digit? -/
def isDigitChar (c : Char) : Bool := 48 ≤ c.toNat && c.toNat ≤ 57

/-- The numeric value of a decimal digit character. -/
def charVal (c : Char) : Nat := c.toNat - 48

/-- Accumulating decimal parse over big-endian digit characters, failing
at the first non-digit. -/
def parseDigitsAcc (acc : Nat) : List Char → Option Nat
  | [] => some acc
  | c :: cs => if isDigitChar c then parseDigitsAcc (acc * 10 + charVal c) cs else none

/-- Unsigned decimal parse, failing on the empty string (as
`strconv.ParseUint` does). -/
def parseUint (s : List Char) : Option Nat :=
  if s = [] then none else parseDigitsAcc 0 s

/-- The two error kinds of `strconv` parsing. -/
inductive AtoiErr where
  | errBadSyntax
  | errOutOfRange
deriving DecidableEq

/-- Magnitude step of `strconv.ParseInt`: parse the digits, apply the
sign, and clamp with a range error on 64-bit overflow. -/
def goAtoiMag (neg : Bool) (digits : List Char) : Int × Option AtoiErr :=
  match parseUint digits with
  | none => (0, some AtoiErr.errBadSyntax)
  | some m =>
    if neg then
      if (m : Int) > 9223372036854775808 then (int64Min, some AtoiErr.errOutOfRange)
      else (-(m : Int), none)
    else
      if (m : Int) > int64Max then (int64Max, some AtoiErr.errOutOfRange)
      else ((m : Int), none)

/-- Model of `strconv.Atoi` = `ParseInt(s, 10, 0)` on a 64-bit platform: the
(value, error) pair Go returns — (0, syntax error) for a malformed or
empty string, (clamped bound, range error) on overflow, (value, no
error) otherwise.  A single leading `'+'` or `'-'` is consumed. -/
def goAtoiFull (s : List Char) : Int × Option AtoiErr :=
  match s with
  | [] => (0, some AtoiErr.errBadSyntax)
  | c :: rest =>
    if c = '+' then goAtoiMag false rest
    else if c = '-' then goAtoiMag true rest
    else goAtoiMag false (c :: rest)

/-- Result view of `strconv.Atoi` with its error checked. -/
def goAtoi (s : List Char) : Except AtoiErr Int :=
  match goAtoiFull s with
  | (v, none) => Except.ok v
  | (_, some e) => Except.error e

/-- The counter-store read of main.go lines 184-188: `ioutil.ReadFile`
is checked by `handleError` (a `none` contents is fatal, modelled by a
`none` result), but the `err` of `strconv.Atoi` at line 187 is never
checked, so the run always continues with the value component of the
parse — 0 when the contents are unparsable. -/
def readLastWeekCount (contents : Option (List Char)) : Option Int :=
  contents.map (fun s => (goAtoiFull s).1)

/-- C2 evaluation: with counter-file contents `"abc"` the run does not
terminate: it continues with last-week count 0 (the unchecked `Atoi`
error); a missing file, by contrast, is fatal. -/
theorem readLastWeekCount_unparsable :
    readLastWeekCount (some (str "abc")) = some 0 ∧ readLastWeekCount none = none := by
  decide

/-! ## Round-trip of the counter store (C8) -/

theorem parseDigitsAcc_append (acc : Nat) (xs ys : List Char) :
    parseDigitsAcc acc (xs ++ ys) =
      (parseDigitsAcc acc xs).bind (fun a => parseDigitsAcc a ys) := by
  induction xs generalizing acc with
  | nil => rfl
  | cons c cs ih =>
    simp only [List.cons_append, parseDigitsAcc, List.append_eq]
    by_cases h : isDigitChar c = true
    · rw [if_pos h, if_pos h, ih]
    · rw [if_neg h, if_neg h]; rfl

theorem isDigitChar_digitChar {d : Nat} (h : d < 10) :
    isDigitChar (digitChar d) = true := by
  interval_cases d <;> decide

theorem charVal_digitChar {d : Nat} (h : d < 10) : charVal (digitChar d) = d := by
  interval_cases d <;> decide

theorem parseDigitsAcc_natToCharsAux (fuel : Nat) :
    ∀ n, n ≤ fuel → ∀ acc, ∃ k, parseDigitsAcc acc (natToCharsAux fuel n) =
      some (acc * 10 ^ k + n) := by
  induction fuel with
  | zero =>
    intro n hn acc
    interval_cases n
    exact ⟨0, by simp [natToCharsAux, parseDigitsAcc]⟩
  | succ fuel ih =>
    intro n hn acc
    by_cases h0 : n = 0
    · subst h0
      exact ⟨0, by simp [natToCharsAux, parseDigitsAcc]⟩
    · have hdiv : n / 10 ≤ fuel := by
        have : n / 10 < n := Nat.div_lt_self (Nat.pos_of_ne_zero h0) (by norm_num)
        omega
      obtain ⟨k, hk⟩ := ih (n / 10) hdiv acc
      refine ⟨k + 1, ?_⟩
      rw [natToCharsAux, if_neg h0, parseDigitsAcc_append, hk]
      have hd : isDigitChar (digitChar (n % 10)) = true :=
        isDigitChar_digitChar (Nat.mod_lt n (by norm_num))
      have hv : charVal (digitChar (n % 10)) = n % 10 :=
        charVal_digitChar (Nat.mod_lt n (by norm_num))
      show parseDigitsAcc (acc * 10 ^ k + n / 10) [digitChar (n % 10)] =
        some (acc * 10 ^ (k + 1) + n)
      simp only [parseDigitsAcc, hd, if_true, hv]
      have heq : (acc * 10 ^ k + n / 10) * 10 + n % 10 = acc * 10 ^ (k + 1) + n := by
        have hmod : n / 10 * 10 + n % 10 = n := by omega
        calc (acc * 10 ^ k + n / 10) * 10 + n % 10
            = acc * (10 ^ k * 10) + (n / 10 * 10 + n % 10) := by ring
          _ = acc * 10 ^ (k + 1) + n := by rw [hmod, Nat.pow_succ]
      rw [heq]

theorem parseUint_natToChars (n : Nat) : parseUint (natToChars n) = some n := by
  by_cases h0 : n = 0
  · subst h0; decide
  · have hne : natToCharsAux n n ≠ [] := by
      cases n with
      | zero => exact absurd rfl h0
      | succ m =>
        rw [natToCharsAux, if_neg h0]
        simp
    obtain ⟨k, hk⟩ := parseDigitsAcc_natToCharsAux n n (Nat.le_refl n) 0
    rw [natToChars, if_neg h0, parseUint, if_neg hne, hk]
    simp

theorem mem_natToCharsAux_isDigit {fuel n : Nat} {c : Char}
    (h : c ∈ natToCharsAux fuel n) : isDigitChar c = true := by
  induction fuel generalizing n with
  | zero => simp [natToCharsAux] at h
  | succ fuel ih =>
    rw [natToCharsAux] at h
    by_cases h0 : n = 0
    · rw [if_pos h0] at h; simp at h
    · rw [if_neg h0] at h
      rcases List.mem_append.mp h with h' | h'
      · exact ih h'
      · simp only [List.mem_singleton] at h'
        subst h'
        exact isDigitChar_digitChar (Nat.mod_lt n (by norm_num))

theorem mem_natToChars_isDigit {n : Nat} {c : Char} (h : c ∈ natToChars n) :
    isDigitChar c = true := by
  rw [natToChars] at h
  by_cases h0 : n = 0
  · rw [if_pos h0] at h
    simp only [List.mem_singleton] at h
    subst h; decide
  · rw [if_neg h0] at h
    exact mem_natToCharsAux_isDigit h

/-- C8: the counter round-trip: for every non-negative `n` representable
in Go's 64-bit `int` (every value the program can write), parsing the
decimal string written at the end of a run yields `n` back. -/
theorem atoi_itoa (n : Nat) (h : (n : Int) ≤ int64Max) :
    goAtoi (goItoa (n : Int)) = Except.ok (n : Int) := by
  have hpos : ¬((n : Int) < 0) := by omega
  rw [goItoa, if_neg hpos, Int.toNat_natCast]
  have hparse := parseUint_natToChars n
  rcases hcons : natToChars n with _ | ⟨c, rest⟩
  · rw [hcons, parseUint] at hparse
    simp at hparse
  · have hdig : isDigitChar c = true :=
      mem_natToChars_isDigit (by rw [hcons]; exact List.mem_cons_self c rest)
    have hplus : ¬(c = '+') := fun hc => by subst hc; simp [isDigitChar] at hdig
    have hminus : ¬(c = '-') := fun hc => by subst hc; simp [isDigitChar] at hdig
    rw [hcons] at hparse
    rw [goAtoi]
    simp only [goAtoiFull, if_neg hplus, if_neg hminus, goAtoiMag, hparse]
    rw [if_neg (not_lt.mpr h)]
    rfl

/-- C8 witness: the round-trip theorem applied at `n = 42`. -/
theorem atoi_itoa_witness :
    ((42 : Nat) : Int) ≤ int64Max ∧
      goAtoi (goItoa ((42 : Nat) : Int)) = Except.ok ((42 : Nat) : Int) :=
  ⟨by decide, atoi_itoa 42 (by decide)⟩

/-! ## Execution order of the tail of main (C3) -/

/-- The externally visible effects of the tail of `main`. -/
inductive MainEvent where
  | readCounterFile
  | formatMessage
  | writeCounterFile
  | postMessage
deriving DecidableEq

/-- The tail of `main` (main.go lines 184-210) as the sequence of
performed effects, in source order: read the counter file (line 184,
fatal on error), format the message (line 189), write the counter file
(line 207, fatal on error), post to Slack (line 209, fatal on error).
Each flag tells whether the corresponding effect succeeds; a failing
effect still happens (appears in the trace) but terminates the run, so
nothing after it is performed.  A post failure is last, so `postOk`
does not change the trace. -/
def mainTailTrace (readOk writeOk postOk : Bool) : List MainEvent :=
  MainEvent.readCounterFile ::
    (if readOk then
      MainEvent.formatMessage :: MainEvent.writeCounterFile ::
        (if writeOk then [MainEvent.postMessage] else [])
    else [])

/-- C3 counterexample: in the run where everything up to the post
succeeds and the post fails, the counter write is performed strictly
BEFORE the post — refuting "the write occurs after the notification
post". -/
theorem write_before_post_cex :
    List.indexOf MainEvent.writeCounterFile (mainTailTrace true true false) <
      List.indexOf MainEvent.postMessage (mainTailTrace true true false) := by
  decide

/-- C3 (amended): in every run that reaches the counter write (read and
write succeed), the write is performed after formatting and BEFORE the
notification post, whether or not the post succeeds; in particular the
write happens even if the post fails. -/
theorem write_after_format_before_post (postOk : Bool) :
    MainEvent.writeCounterFile ∈ mainTailTrace true true postOk ∧
      List.indexOf MainEvent.formatMessage (mainTailTrace true true postOk) <
        List.indexOf MainEvent.writeCounterFile (mainTailTrace true true postOk) ∧
      List.indexOf MainEvent.writeCounterFile (mainTailTrace true true postOk) <
        List.indexOf MainEvent.postMessage (mainTailTrace true true postOk) := by
  cases postOk <;> decide

/-! ## Message formatter -/

/-- UTF-8 encoded size in bytes of one character. -/
def utf8CharSize (c : Char) : Nat :=
  if c.toNat < 128 then 1
  else if c.toNat < 2048 then 2
  else if c.toNat < 65536 then 3
  else 4

/-- Go's `len` on a string: its UTF-8 byte length. -/
def utf8Len (s : List Char) : Nat := (s.map utf8CharSize).sum

/-- The backtick character (code point 96). -/
def backtickChar : Char := Char.ofNat 96

/-- Model of `strings.Replace(s, old, "", n)` with a one-character `old` and
empty replacement: remove the first `n` occurrences of `c` from `s`
(main.go line 120 calls it with `n = 100`). -/
def removeFirstN (c : Char) : Nat → List Char → List Char
  | _, [] => []
  | n, x :: xs =>
    match n with
    | 0 => x :: xs
    | n + 1 => if x = c then removeFirstN c n xs else x :: removeFirstN c (n + 1) xs

/-- main.go line 120: the issue title with its first 100 backticks
removed. -/
def fixedTitle (title : List Char) : List Char := removeFirstN backtickChar 100 title

/-- Whole days since last update (main.go line 119): Go computes
`int(math.Floor(time.Since(t).Seconds() / 86400))` through float64;
modelled as the exact floor division of elapsed nanoseconds by one day
(exact whenever the float64 computation is). -/
def daysAgo (now updatedAt : Int) : Int := Int.fdiv (now - updatedAt) 86400000000000

/-- The part of a bullet before the title (main.go line 121). -/
def bulletPre (issue : Issue) : List Char :=
  str "• <" ++ issue.issueURL ++ str "|"

/-- The part of a bullet after the title (main.go line 121). -/
def bulletTail (now : Int) (issue : Issue) : List Char :=
  str "> in the <" ++ issue.repository.repoURL ++ str "|" ++
    issue.repository.name ++ str "> repo\nLast updated *" ++
    goItoa (daysAgo now issue.updatedAt) ++ str "* days ago\n\n"

/-- The bullet line appended for one issue (main.go line 121):
`"• <url|title'> in the <repoURL|repoName> repo\nLast updated *D* days ago\n\n"`
where `title'` is the backtick-stripped title. -/
def bulletText (now : Int) (issue : Issue) : List Char :=
  bulletPre issue ++ fixedTitle issue.title ++ bulletTail now issue

/-- The attachment-splitting loop of main.go lines 114-132: append each
bullet to the running block; AFTER appending, if the block's byte length
exceeds 3500, close the block and start a new empty one; after the loop,
close the running block if it is non-empty. -/
def attachLoop (blocks : List (List Char)) (cur : List Char) :
    List (List Char) → List (List Char)
  | [] => if cur = [] then blocks else blocks ++ [cur]
  | b :: bs =>
    if utf8Len (cur ++ b) > 3500 then attachLoop (blocks ++ [cur ++ b]) [] bs
    else attachLoop blocks (cur ++ b) bs

/-- The attachment blocks built from the bullets, in order. -/
def buildAttachments (bullets : List (List Char)) : List (List Char) :=
  attachLoop [] [] bullets

/-- The zero-issues message of main.go line 99. -/
def congratsMessage (lastWeek : Int) : List Char :=
  str "No rottening issues! Great work :fiestaparrot:\n Last week we had *" ++
    goItoa lastWeek ++ str "* rottening issues."

/-- The non-zero header of main.go lines 102-112: the count comparison
with its three cases, then the list heading. -/
def headerMessage (thisWeek lastWeek threshold : Int) : List Char :=
  str "Currently we have *" ++ goItoa thisWeek ++
    str "* issues that have not updated for over *" ++ goItoa threshold ++
    str "* days\n" ++
    (if thisWeek < lastWeek then
      str "That is *" ++ goItoa (lastWeek - thisWeek) ++
        str "* fewer than last week :slightly_smiling_face:"
    else if thisWeek > lastWeek then
      str "That is *" ++ goItoa (thisWeek - lastWeek) ++
        str "* more than last week :white_frowning_face:"
    else str "That is the same number as last week :neutral_face:") ++
    str "\n\n*Rottening issues:* \n\n"

/-- Model of `formattedWeeklyIssues` (main.go lines 96-134): the Slack message
text and the list of attachment blocks. -/
def formattedWeeklyIssues (now : Int) (issues : List Issue)
    (numberOfIssuesThisWeek numberOfIssuesLastWeek rotteningTreshold : Int) :
    List Char × List (List Char) :=
  if numberOfIssuesThisWeek = 0 then
    (congratsMessage numberOfIssuesLastWeek, [])
  else
    (headerMessage numberOfIssuesThisWeek numberOfIssuesLastWeek rotteningTreshold,
      buildAttachments (issues.map (bulletText now)))

/-- C7: whenever this week's count is zero the formatter returns the
congratulatory header — which mentions last week's count — and an empty
attachment list, regardless of last week's count, the threshold, and the
issue list argument. -/
theorem formatted_zero (now : Int) (issues : List Issue)
    (lastWeek threshold : Int) :
    formattedWeeklyIssues now issues 0 lastWeek threshold =
      (str "No rottening issues! Great work :fiestaparrot:\n Last week we had *" ++
        goItoa lastWeek ++ str "* rottening issues.", []) := rfl

/-! ## Attachment block structure (C9) -/

theorem flatten_attachLoop (bs : List (List Char)) :
    ∀ blocks cur, (attachLoop blocks cur bs).flatten =
      blocks.flatten ++ cur ++ bs.flatten := by
  induction bs with
  | nil =>
    intro blocks cur
    by_cases h : cur = []
    · subst h; simp [attachLoop]
    · simp [attachLoop, if_neg h]
  | cons b bs ih =>
    intro blocks cur
    simp only [attachLoop]
    by_cases h : utf8Len (cur ++ b) > 3500
    · rw [if_pos h, ih]
      simp [List.append_assoc]
    · rw [if_neg h, ih]
      simp [List.append_assoc]

theorem ne_nil_attachLoop (bs : List (List Char)) :
    ∀ blocks cur, (∀ x ∈ blocks, x ≠ []) → (∀ b ∈ bs, b ≠ []) →
      ∀ x ∈ attachLoop blocks cur bs, x ≠ [] := by
  induction bs with
  | nil =>
    intro blocks cur hb _ x hx
    by_cases h : cur = []
    · simp only [attachLoop, if_pos h] at hx
      exact hb x hx
    · simp only [attachLoop, if_neg h] at hx
      rcases List.mem_append.mp hx with h' | h'
      · exact hb x h'
      · simp only [List.mem_singleton] at h'
        subst h'; exact h
  | cons b bs ih =>
    intro blocks cur hb hbl x hx
    have hbne : b ≠ [] := hbl b (List.mem_cons_self b bs)
    have hrest : ∀ y ∈ bs, y ≠ [] := fun y hy => hbl y (List.mem_cons_of_mem _ hy)
    simp only [attachLoop] at hx
    by_cases h : utf8Len (cur ++ b) > 3500
    · rw [if_pos h] at hx
      refine ih _ _ ?_ hrest x hx
      intro y hy
      rcases List.mem_append.mp hy with h' | h'
      · exact hb y h'
      · simp only [List.mem_singleton] at h'
        subst h'
        exact fun hc => hbne (List.append_eq_nil.mp hc).2
    · rw [if_neg h] at hx
      exact ih _ _ hb hrest x hx

theorem bulletText_ne_nil (now : Int) (issue : Issue) :
    bulletText now issue ≠ [] := by
  intro hc
  rw [bulletText, bulletPre] at hc
  have h1 := (List.append_eq_nil.mp (List.append_eq_nil.mp
    (List.append_eq_nil.mp (List.append_eq_nil.mp hc).1).1).1).1
  have h2 : str "• <" ≠ [] := by decide
  exact h2 h1

/-- C9: for every non-empty issue list and positive this-week count the
formatter returns at least one attachment block, every block is a
non-empty string, and the concatenation of the blocks in order is
exactly the concatenation of one bullet per input issue, in the input
list's order. -/
theorem formatted_blocks (now : Int) (issues : List Issue)
    (thisWeek lastWeek threshold : Int) (hne : issues ≠ [])
    (hpos : 0 < thisWeek) :
    (formattedWeeklyIssues now issues thisWeek lastWeek threshold).2 ≠ [] ∧
      (∀ b ∈ (formattedWeeklyIssues now issues thisWeek lastWeek threshold).2, b ≠ []) ∧
      (formattedWeeklyIssues now issues thisWeek lastWeek threshold).2.flatten =
        (issues.map (bulletText now)).flatten := by
  have h0 : ¬(thisWeek = 0) := by omega
  have hout : (formattedWeeklyIssues now issues thisWeek lastWeek threshold).2 =
      buildAttachments (issues.map (bulletText now)) := by
    rw [formattedWeeklyIssues, if_neg h0]
  have hflat : (formattedWeeklyIssues now issues thisWeek lastWeek threshold).2.flatten =
      (issues.map (bulletText now)).flatten := by
    rw [hout, buildAttachments, flatten_attachLoop]
    simp
  refine ⟨?_, ?_, hflat⟩
  · intro hc
    rcases hcons : issues with _ | ⟨i, is⟩
    · exact hne hcons
    · have : (issues.map (bulletText now)).flatten = [] := by
        rw [← hflat, hc]; rfl
      rw [hcons] at this
      simp only [List.map_cons, List.flatten_cons] at this
      exact bulletText_ne_nil now i (List.append_eq_nil.mp this).1
  · rw [hout, buildAttachments]
    refine ne_nil_attachLoop _ _ _ (by simp) ?_
    intro b hb
    rcases List.mem_map.mp hb with ⟨i, _, hi⟩
    rw [← hi]
    exact bulletText_ne_nil now i

/-- C9 witness: the theorem applied at a concrete one-issue input. -/
theorem formatted_blocks_witness :
    ([boundaryIssue] ≠ ([] : List Issue)) ∧ (0 : Int) < 1 ∧
      ((formattedWeeklyIssues 86400000000001 [boundaryIssue] 1 0 1).2 ≠ [] ∧
        (∀ b ∈ (formattedWeeklyIssues 86400000000001 [boundaryIssue] 1 0 1).2, b ≠ []) ∧
        (formattedWeeklyIssues 86400000000001 [boundaryIssue] 1 0 1).2.flatten =
          ([boundaryIssue].map (bulletText 86400000000001)).flatten) :=
  ⟨by decide, by decide,
    formatted_blocks 86400000000001 [boundaryIssue] 1 0 1 (by decide) (by decide)⟩

/-! ## Backtick stripping (C10) -/

theorem removeFirstN_zero (c : Char) (s : List Char) : removeFirstN c 0 s = s := by
  cases s <;> rfl

theorem removeFirstN_succ_cons (c : Char) (n : Nat) (x : Char) (xs : List Char) :
    removeFirstN c (n + 1) (x :: xs) =
      if x = c then removeFirstN c n xs else x :: removeFirstN c (n + 1) xs := rfl

theorem removeFirstN_eq_filter (c : Char) :
    ∀ (t : List Char) (n : Nat), t.count c ≤ n →
      removeFirstN c n t = t.filter (fun x => !(x == c)) := by
  intro t
  induction t with
  | nil => intro n _; rfl
  | cons x xs ih =>
    intro n h
    rw [List.count_cons] at h
    by_cases hx : x = c
    · subst hx
      rw [if_pos (beq_self_eq_true x)] at h
      cases n with
      | zero => omega
      | succ m =>
        rw [removeFirstN_succ_cons, if_pos rfl, List.filter_cons,
          if_neg (by simp : ¬((!(x == x)) = true))]
        exact ih m (by omega)
    · have hbeq : (x == c) = false := beq_eq_false_iff_ne.mpr hx
      rw [hbeq, if_neg (by decide : ¬(false = true)), Nat.add_zero] at h
      cases n with
      | zero =>
        have hcount : xs.count c = 0 := Nat.le_zero.mp h
        have hfilter : xs.filter (fun y => !(y == c)) = xs := by
          rw [List.filter_eq_self]
          intro a ha
          have hac : ¬(a = c) := fun hc => by
            subst hc
            exact List.count_eq_zero.mp hcount ha
          simp [beq_eq_false_iff_ne.mpr hac]
        rw [removeFirstN_zero, List.filter_cons, hbeq,
          if_pos (by simp : ((!false : Bool)) = true), hfilter]
      | succ m =>
        rw [removeFirstN_succ_cons, if_neg hx, List.filter_cons, hbeq,
          if_pos (by simp : ((!false : Bool)) = true), ih (m + 1) h]

/-- C10: whenever the issue title holds at most 100 backtick characters,
the bullet renders the title with all backticks removed and every other
title character unchanged. -/
theorem bullet_strips_backticks (now : Int) (issue : Issue)
    (h : issue.title.count backtickChar ≤ 100) :
    bulletText now issue =
      bulletPre issue ++
        issue.title.filter (fun x => !(x == backtickChar)) ++
        bulletTail now issue := by
  rw [bulletText, fixedTitle, removeFirstN_eq_filter backtickChar issue.title 100 h]

/-- An issue whose title holds two backticks, for the C10 witness. -/
def backtickIssue : Issue :=
  { issueURL := str "https://github.com/org/a-repo/issues/2"
    title := 'f' :: backtickChar :: 'x' :: backtickChar :: []
    repository := sampleRepo
    body := str ""
    state := str "open"
    createdAt := 0
    updatedAt := 0
    isPR := none }

/-- C10 witness: the theorem applied to a concrete title with two
backticks. -/
theorem bullet_strips_backticks_witness :
    backtickIssue.title.count backtickChar ≤ 100 ∧
      bulletText 86400000000001 backtickIssue =
        bulletPre backtickIssue ++
          backtickIssue.title.filter (fun x => !(x == backtickChar)) ++
          bulletTail 86400000000001 backtickIssue :=
  ⟨by decide, bullet_strips_backticks 86400000000001 backtickIssue (by decide)⟩

/-! ## Attachment block length (C1) -/

theorem utf8Len_append (a b : List Char) :
    utf8Len (a ++ b) = utf8Len a + utf8Len b := by
  simp [utf8Len]

theorem attachLoop_bound (M : Nat) (bs : List (List Char)) :
    ∀ blocks cur, (∀ x ∈ blocks, utf8Len x ≤ 3500 + M) → utf8Len cur ≤ 3500 →
      (∀ b ∈ bs, utf8Len b ≤ M) →
      ∀ x ∈ attachLoop blocks cur bs, utf8Len x ≤ 3500 + M := by
  induction bs with
  | nil =>
    intro blocks cur hb hc _ x hx
    by_cases h : cur = []
    · simp only [attachLoop, if_pos h] at hx
      exact hb x hx
    · simp only [attachLoop, if_neg h] at hx
      rcases List.mem_append.mp hx with h' | h'
      · exact hb x h'
      · simp only [List.mem_singleton] at h'
        subst h'; omega
  | cons b bs ih =>
    intro blocks cur hb hc hbl x hx
    have hbM : utf8Len b ≤ M := hbl b (List.mem_cons_self b bs)
    have hrest : ∀ y ∈ bs, utf8Len y ≤ M := fun y hy => hbl y (List.mem_cons_of_mem _ hy)
    simp only [attachLoop] at hx
    by_cases h : utf8Len (cur ++ b) > 3500
    · rw [if_pos h] at hx
      refine ih _ _ ?_ (by simp [utf8Len]) hrest x hx
      intro y hy
      rcases List.mem_append.mp hy with h' | h'
      · exact hb y h'
      · simp only [List.mem_singleton] at h'
        subst h'
        rw [utf8Len_append]
        omega
    · rw [if_neg h] at hx
      exact ih _ _ hb (by omega) hrest x hx

/-- C1 (amended): every attachment block is at most 3500 bytes PLUS the
byte length of one bullet: the bullet whose addition pushes the running
block past 3500 stays in that block — the block is then closed and the
NEXT bullet starts a new block. -/
theorem formatted_block_bound (now : Int) (issues : List Issue)
    (thisWeek lastWeek threshold : Int) (M : Nat)
    (hM : ∀ issue ∈ issues, utf8Len (bulletText now issue) ≤ M) :
    ∀ b ∈ (formattedWeeklyIssues now issues thisWeek lastWeek threshold).2,
      utf8Len b ≤ 3500 + M := by
  by_cases h0 : thisWeek = 0
  · simp [formattedWeeklyIssues, h0]
  · rw [formattedWeeklyIssues, if_neg h0]
    refine attachLoop_bound M _ _ _ (by simp) (by simp [utf8Len]) ?_
    intro b hb
    rcases List.mem_map.mp hb with ⟨i, hi, hbi⟩
    rw [← hbi]
    exact hM i hi

set_option maxRecDepth 100000 in
/-- C1 amended-claim witness: the theorem applied at a concrete input
(one bullet of at most 200 bytes; the single block is within
3500 + 200). -/
theorem formatted_block_bound_witness :
    (∀ issue ∈ [boundaryIssue], utf8Len (bulletText 86400000000001 issue) ≤ 200) ∧
      ∀ b ∈ (formattedWeeklyIssues 86400000000001 [boundaryIssue] 1 0 1).2,
        utf8Len b ≤ 3500 + 200 :=
  ⟨by decide, formatted_block_bound 86400000000001 [boundaryIssue] 1 0 1 200 (by decide)⟩

/-- A non-PR issue with a 1800-character title, for the C1
counterexample. -/
def longTitleIssue1 : Issue :=
  { issueURL := str "https://github.com/org/a-repo/issues/3"
    title := List.replicate 1800 'a'
    repository := sampleRepo
    body := str ""
    state := str "open"
    createdAt := 0
    updatedAt := 0
    isPR := none }

/-- A second issue with a 1800-character title. -/
def longTitleIssue2 : Issue :=
  { longTitleIssue1 with
    issueURL := str "https://github.com/org/a-repo/issues/4"
    title := List.replicate 1800 'b' }

/-- The byte length of a repeated character. -/
theorem utf8Len_replicate (n : Nat) (c : Char) :
    utf8Len (List.replicate n c) = n * utf8CharSize c := by
  simp [utf8Len, List.map_replicate, List.sum_replicate, smul_eq_mul]

/-- A title without backticks passes through the backtick stripping
unchanged. -/
theorem fixedTitle_no_backtick {t : List Char} (h : backtickChar ∉ t) :
    fixedTitle t = t := by
  rw [fixedTitle, removeFirstN_eq_filter backtickChar t 100
    (by rw [List.count_eq_zero.mpr h]; omega)]
  rw [List.filter_eq_self]
  intro a ha
  have hne : a ≠ backtickChar := by
    intro hc
    subst hc
    exact h ha
  simp [beq_eq_false_iff_ne.mpr hne]

/-- The splitting loop on exactly two bullets, where the first fits and
the second overflows: both end up in one block. -/
theorem attachLoop_two (b1 b2 : List Char) (h1 : ¬(utf8Len b1 > 3500))
    (h2 : utf8Len (b1 ++ b2) > 3500) :
    attachLoop [] [] [b1, b2] = [b1 ++ b2] := by
  simp only [attachLoop, List.nil_append]
  rw [if_neg h1, if_pos h2]
  rfl

/-- C1 counterexample: with two issues whose bullets are between 1800
and 2000 bytes each, the second bullet is appended to the running block
BEFORE the length check, so the formatter returns an attachment block
longer than 3500 characters — refuting "every attachment block returned
by the message formatter is at most 3500 characters long". -/
theorem block_over_cap_cex :
    ∃ b ∈ (formattedWeeklyIssues 86400000000000 [longTitleIssue1, longTitleIssue2] 2 1 1).2,
      3500 < utf8Len b := by
  have hmemA : backtickChar ∉ List.replicate 1800 'a' := by
    rw [List.mem_replicate]
    rintro ⟨-, h⟩
    exact absurd h (by decide)
  have hmemB : backtickChar ∉ List.replicate 1800 'b' := by
    rw [List.mem_replicate]
    rintro ⟨-, h⟩
    exact absurd h (by decide)
  have hfixA : fixedTitle longTitleIssue1.title = List.replicate 1800 'a' :=
    fixedTitle_no_backtick hmemA
  have hfixB : fixedTitle longTitleIssue2.title = List.replicate 1800 'b' :=
    fixedTitle_no_backtick hmemB
  have hrepA : utf8Len (List.replicate 1800 'a') = 1800 := by
    rw [utf8Len_replicate, show utf8CharSize 'a' = 1 from by decide, Nat.mul_one]
  have hrepB : utf8Len (List.replicate 1800 'b') = 1800 := by
    rw [utf8Len_replicate, show utf8CharSize 'b' = 1 from by decide, Nat.mul_one]
  have hpre1 : utf8Len (bulletPre longTitleIssue1) ≤ 100 := by decide
  have hpre2 : utf8Len (bulletPre longTitleIssue2) ≤ 100 := by decide
  have htail1 : utf8Len (bulletTail 86400000000000 longTitleIssue1) ≤ 100 := by decide
  have htail2 : utf8Len (bulletTail 86400000000000 longTitleIssue2) ≤ 100 := by decide
  have hsplit1 : utf8Len (bulletText 86400000000000 longTitleIssue1) =
      utf8Len (bulletPre longTitleIssue1) + utf8Len (List.replicate 1800 'a') +
        utf8Len (bulletTail 86400000000000 longTitleIssue1) := by
    rw [bulletText, utf8Len_append, utf8Len_append, hfixA]
  have hsplit2 : utf8Len (bulletText 86400000000000 longTitleIssue2) =
      utf8Len (bulletPre longTitleIssue2) + utf8Len (List.replicate 1800 'b') +
        utf8Len (bulletTail 86400000000000 longTitleIssue2) := by
    rw [bulletText, utf8Len_append, utf8Len_append, hfixB]
  have hB1lo : 1800 ≤ utf8Len (bulletText 86400000000000 longTitleIssue1) := by omega
  have hB1hi : utf8Len (bulletText 86400000000000 longTitleIssue1) ≤ 2000 := by omega
  have hB2lo : 1800 ≤ utf8Len (bulletText 86400000000000 longTitleIssue2) := by omega
  have hover : utf8Len (bulletText 86400000000000 longTitleIssue1 ++
      bulletText 86400000000000 longTitleIssue2) > 3500 := by
    rw [utf8Len_append]; omega
  have h1 : ¬(utf8Len (bulletText 86400000000000 longTitleIssue1) > 3500) := by omega
  have hform : (formattedWeeklyIssues 86400000000000 [longTitleIssue1, longTitleIssue2] 2 1 1).2 =
      attachLoop [] [] [bulletText 86400000000000 longTitleIssue1,
        bulletText 86400000000000 longTitleIssue2] := by
    rw [formattedWeeklyIssues, if_neg (by omega : ¬((2 : Int) = 0))]
    simp only [buildAttachments, List.map_cons, List.map_nil]
  rw [hform, attachLoop_two _ _ h1 hover]
  exact ⟨bulletText 86400000000000 longTitleIssue1 ++ bulletText 86400000000000 longTitleIssue2,
    List.mem_singleton.mpr rfl, hover⟩
